import Mathlib

set_option maxRecDepth 100000

/-!
Shallow embedding of the b3 repository: the fixed-width COTAHIST decoder
(src/b3/parsing/historical_quotes.py), the numeric picture-decimal helpers
(src/b3/utils.py) and the remote company-detail lookup (src/b3/net/query.py),
together with theorems settling the frozen claims about the specification.

Conventions of the embedding:
* Python exceptions become `Option`/`Except` results; a function that can
  only raise is total here and returns the error value.
* Machine text is `String` (a `List Char` wrapper); slicing, stripping and
  the numeric grammars of `int(...)`, `decimal.Decimal(...)` and
  `datetime.strptime(...)` are reproduced from CPython semantics, since the
  decoder behaviour under scrutiny is exactly the acceptance behaviour of
  those library calls.
* The module `b3.datatypes` is not under src/: its enumerations and plain
  record classes are modelled from the spec (see the doc comments starting
  with `Modelled from the spec:`).
-/

/-- ASCII digit test, as used by the numeric grammars below. -/
def isDigitChar (c : Char) : Bool := '0' ≤ c && c ≤ '9'

/-- Numeric value of an ASCII digit. -/
def digitVal (c : Char) : ℕ := c.toNat - '0'.toNat

/-- Value of a digit string read left to right. -/
def digitsToNat (l : List Char) : ℕ := l.foldl (fun a c => 10 * a + digitVal c) 0

/-- Python whitespace characters (the ASCII ones; the input files are ASCII). -/
def isPyWs (c : Char) : Bool :=
  c = ' ' || c = '\t' || c = '\n' || c = '\r' || c = '\x0b' || c = '\x0c'

/-- Remove leading and trailing whitespace, as Python str.strip(). -/
def stripList (l : List Char) : List Char :=
  ((l.dropWhile isPyWs).reverse.dropWhile isPyWs).reverse

/-- Python str.strip() on a string. -/
def pyStrip (s : String) : String := ⟨stripList s.data⟩

/-- Python slice s[a:b] for natural bounds: clamping, never raising. -/
def pySlice (s : String) (a b : ℕ) : String := ⟨(s.data.drop a).take (b - a)⟩

/-- Python s[2:]. -/
def pyDropFirst2 (s : String) : String := ⟨s.data.drop 2⟩

/-- The text cleaning the Decimal constructor applies before its grammar:
strip surrounding whitespace, then remove every underscore (CPython drops
all underscores from the stripped text before parsing, since Python 3.6). -/
def decClean (l : List Char) : List Char :=
  (stripList l).filter (fun c => decide (c ≠ '_'))

/-- Digit run with optional single underscores between digits: the grammar of
int("...") after sign handling. Accumulates the value; rejects a trailing or
doubled underscore. -/
def intDigitsAux : ℕ → List Char → Option ℕ
  | acc, [] => some acc
  | acc, '_' :: c :: rest =>
    if isDigitChar c then intDigitsAux (10 * acc + digitVal c) rest else none
  | acc, c :: rest =>
    if isDigitChar c then intDigitsAux (10 * acc + digitVal c) rest else none

/-- Digit run for int(...): must be nonempty and may not start with an underscore. -/
def intDigits : List Char → Option ℕ
  | [] => none
  | c :: rest => if isDigitChar c then intDigitsAux (digitVal c) rest else none

/-- Python int(str): optional surrounding whitespace, optional sign, digits
(with optional single grouping underscores). ValueError becomes `none`. -/
def pyInt (s : String) : Option ℤ :=
  let l := stripList s.data
  if l.head? = some '+' then (intDigits l.tail).map (fun n => (n : ℤ))
  else if l.head? = some '-' then (intDigits l.tail).map (fun n => -(n : ℤ))
  else (intDigits l).map (fun n => (n : ℤ))

/-- A value of Python decimal.Decimal: a finite rational, an infinity or a NaN.
The decoder only ever builds finite values, but the constructor grammar also
accepts the special forms, so they are represented. -/
inductive PyDecimal where
  | num (q : ℚ)
  | infVal (neg : Bool)
  | nanVal
deriving DecidableEq

/-- Split an optional leading sign, as the Decimal and int grammars do.
Returns (isNegative, remainder). -/
def splitSign (l : List Char) : Bool × List Char :=
  match l with
  | c :: r => if c = '+' then (false, r) else if c = '-' then (true, r) else (false, l)
  | [] => (false, [])

/-- Exponent part of the Decimal grammar after the letter E: an optional sign
followed by at least one digit, consuming the whole remainder. -/
def parseExp (l : List Char) : Option ℤ :=
  let p := splitSign l
  if p.2 ≠ [] && p.2.all isDigitChar then
    some ((if p.1 then -1 else 1) * (digitsToNat p.2 : ℤ))
  else none

/-- After the coefficient of a Decimal literal: either the end of the string
(exponent 0) or an exponent marker followed by a signed digit run. -/
def decTail (r : List Char) : Option ℤ :=
  match r with
  | [] => some 0
  | c :: t => if c = 'e' ∨ c = 'E' then parseExp t else none

/-- Build the finite Decimal value from sign, integral digits, fractional
digits and explicit exponent. -/
def mkNum (sgn : Bool) (ipart fpart : List Char) (e : ℤ) : PyDecimal :=
  PyDecimal.num
    ((if sgn then (-1 : ℚ) else 1) * (digitsToNat (ipart ++ fpart) : ℚ) *
      (10 : ℚ) ^ (e - (fpart.length : ℤ)))

/-- Numeric alternative of the Decimal grammar: digits, an optional dot with
further digits (at least one digit in the whole coefficient), and an optional
exponent. Anything left over rejects the string. -/
def decNumeric (sgn : Bool) (t : List Char) : Option PyDecimal :=
  let ipart := t.takeWhile isDigitChar
  let r1 := t.dropWhile isDigitChar
  let fpart := if r1.head? = some '.' then r1.tail.takeWhile isDigitChar else []
  let r2 := if r1.head? = some '.' then r1.tail.dropWhile isDigitChar else r1
  if ipart = [] ∧ fpart = [] then none
  else (decTail r2).map (mkNum sgn ipart fpart)

/-- NaN alternative of the Decimal grammar (already lowercased): an optional
signalling s, the letters nan, and an optional digit diagnostic. -/
def isNanForm (l : List Char) : Bool :=
  match l with
  | 'n' :: 'a' :: 'n' :: rest => rest.all isDigitChar
  | 's' :: 'n' :: 'a' :: 'n' :: rest => rest.all isDigitChar
  | _ => false

/-- Python decimal.Decimal(str): strip surrounding whitespace, drop every
underscore, then an optional sign and one of the numeric, infinity or NaN
alternatives (the three are disjoint, so trying the numeric one first is
faithful). A rejected string raises decimal.InvalidOperation in Python,
here `none`. -/
def pythonDecimal (s : String) : Option PyDecimal :=
  let l := decClean s.data
  let sp := splitSign l
  match decNumeric sp.1 sp.2 with
  | some v => some v
  | none =>
    let low := sp.2.map Char.toLower
    if low = ("inf").data ∨ low = ("infinity").data then some (PyDecimal.infVal sp.1)
    else if isNanForm low then some PyDecimal.nanVal
    else none

/-- src/b3/utils.py pic_to_decimal: split the text at `integral_places`,
rejoin with a dot and hand the result to Decimal; InvalidOperation is caught
and becomes `none` (no other exception can escape). -/
def pic_to_decimal (number : String) (integral_places : ℕ) : Option PyDecimal :=
  pythonDecimal ⟨number.data.take integral_places ++ '.' :: number.data.drop integral_places⟩

/-- src/b3/utils.py pic11v99. -/
def pic11v99 (number : String) : Option PyDecimal := pic_to_decimal number 11

/-- src/b3/utils.py pic16v99. -/
def pic16v99 (number : String) : Option PyDecimal := pic_to_decimal number 16

/-- src/b3/utils.py pic7v06. -/
def pic7v06 (number : String) : Option PyDecimal := pic_to_decimal number 7

/-- A calendar date as produced by datetime.date. -/
structure PyDate where
  y : ℕ
  m : ℕ
  d : ℕ
deriving DecidableEq, Inhabited

/-- Gregorian leap-year rule, as datetime uses. -/
def isLeapYear (y : ℕ) : Bool := (y % 4 == 0 && !(y % 100 == 0)) || y % 400 == 0

/-- Days in a month, as datetime uses (m is already known to be 1..12). -/
def daysInMonth (y m : ℕ) : ℕ :=
  if m = 2 then (if isLeapYear y then 29 else 28)
  else if m = 4 ∨ m = 6 ∨ m = 9 ∨ m = 11 then 30
  else 31

/-- strptime %m, two-character alternatives 1[0-2] and 0[1-9]. -/
def month2 (a b : Char) : Option ℕ :=
  if a = '1' ∧ (b = '0' ∨ b = '1' ∨ b = '2') then some (10 + digitVal b)
  else if a = '0' ∧ isDigitChar b ∧ b ≠ '0' then some (digitVal b)
  else none

/-- strptime %m, one-character alternative [1-9]. -/
def month1 (a : Char) : Option ℕ :=
  if isDigitChar a ∧ a ≠ '0' then some (digitVal a) else none

/-- strptime %d, two-character alternatives 3[01], [12]d and 0[1-9]. -/
def day2 (a b : Char) : Option ℕ :=
  if a = '3' ∧ (b = '0' ∨ b = '1') then some (30 + digitVal b)
  else if (a = '1' ∨ a = '2') ∧ isDigitChar b then some (10 * digitVal a + digitVal b)
  else if a = '0' ∧ isDigitChar b ∧ b ≠ '0' then some (digitVal b)
  else none

/-- strptime %d, one-character alternative [1-9]. -/
def day1 (a : Char) : Option ℕ :=
  if isDigitChar a ∧ a ≠ '0' then some (digitVal a) else none

/-- Match %d at the head of the input: the two-character alternatives are
tried before the one-character one, and the first regex-level success is kept
(leftover text is judged afterwards, as strptime does). -/
def dayMatch : List Char → Option (ℕ × List Char)
  | a :: b :: rest =>
    match day2 a b with
    | some d => some (d, rest)
    | none => (day1 a).map (fun d => (d, b :: rest))
  | [a] => (day1 a).map (fun d => (d, []))
  | [] => none

/-- Match %m%d: the two-character month is preferred; the regex only
backtracks to the one-character month when no day alternative matches at all
(a day match with leftover text is a regex success and is kept). -/
def monthDayMatch : List Char → Option (ℕ × ℕ × List Char)
  | a :: b :: rest =>
    match month2 a b with
    | some m =>
      match dayMatch rest with
      | some dp => some (m, dp.1, dp.2)
      | none => (month1 a).bind (fun m1 => (dayMatch (b :: rest)).map (fun dp => (m1, dp.1, dp.2)))
    | none => (month1 a).bind (fun m1 => (dayMatch (b :: rest)).map (fun dp => (m1, dp.1, dp.2)))
  | [a] => (month1 a).bind (fun _ => none)
  | [] => none

/-- datetime.datetime.strptime(s, "%Y%m%d").date(): a four-digit year, then
month and day per the strptime regexes, no text left over, and the
datetime.date validity checks (year at least 1, day within the month). -/
def strptimeYmd (s : String) : Option PyDate :=
  match s.data with
  | y1 :: y2 :: y3 :: y4 :: rest =>
    if isDigitChar y1 && isDigitChar y2 && isDigitChar y3 && isDigitChar y4 then
      let y := 1000 * digitVal y1 + 100 * digitVal y2 + 10 * digitVal y3 + digitVal y4
      match monthDayMatch rest with
      | some (m, d, []) =>
        if 1 ≤ y ∧ d ≤ daysInMonth y m then some ⟨y, m, d⟩ else none
      | _ => none
    else none
  | _ => none

/-- src/b3/utils.py date_from_string; ValueError becomes `none`. -/
def date_from_string (s : String) : Option PyDate := strptimeYmd s

/-- Modelled from the spec: the enumerations DailyBulletinType, MarketType,
ContractCorrection and QuoteSize live in b3.datatypes, which is not under
src/. The spec describes them only as closed enumerations over small integer
codes (MarketType over raw three-character codes), so each is modelled as the
membership predicate of its value set; constructing a member from a
non-member raises ValueError in Python, which the predicates reflect. -/
structure B3Enums where
  bulletinType : ℤ → Bool
  marketType : String → Bool
  contractCorrection : ℤ → Bool
  quoteSize : ℤ → Bool

/-- A decoded field value: one constructor per semantic decoder appearing in
the field specification table. Optional decoders store an explicit `none`. -/
inductive FieldValue where
  | pyDate (d : PyDate)
  | bulletinType (n : ℤ)
  | text (s : String)
  | marketType (code : String)
  | optInt (n : Option ℤ)
  | dec (v : Option PyDecimal)
  | intVal (n : ℤ)
  | correction (n : Option ℤ)
  | quoteSize (n : ℤ)
deriving DecidableEq, Inhabited

/-- One entry of the field specification table: the namedtuple
QuotesField(name, size, factory). A factory returning `none` models a
ValueError escaping the factory call. -/
structure QuotesField where
  name : String
  size : ℕ
  factory : String → Option FieldValue

/-- src/b3/parsing/historical_quotes.py _quotes_fields: the 25-entry data
record layout, in source order. The lru_cache on the source function only
makes the tuple a process-wide constant, which a pure definition already is.
The enumeration constructors come from the modelled `B3Enums`. -/
def quotes_fields (E : B3Enums) : List QuotesField :=
  [⟨"EXCDAT", 8, fun v => (date_from_string v).map FieldValue.pyDate⟩,
   ⟨"CODBDI", 2, fun v => (pyInt v).bind (fun n =>
      if E.bulletinType n then some (FieldValue.bulletinType n) else none)⟩,
   ⟨"CODNEG", 12, fun v => some (FieldValue.text v)⟩,
   ⟨"TPMERC", 3, fun v =>
      if E.marketType v then some (FieldValue.marketType v) else none⟩,
   ⟨"NOMRES", 12, fun v => some (FieldValue.text v)⟩,
   ⟨"ESPECI", 10, fun v => some (FieldValue.text v)⟩,
   ⟨"PRAZOT", 3, fun v =>
      if v = "" then some (FieldValue.optInt none)
      else (pyInt v).map (fun n => FieldValue.optInt (some n))⟩,
   ⟨"MODREF", 4, fun v => some (FieldValue.text v)⟩,
   ⟨"PREABE", 13, fun v => some (FieldValue.dec (pic11v99 v))⟩,
   ⟨"PREMAX", 13, fun v => some (FieldValue.dec (pic11v99 v))⟩,
   ⟨"PREMIN", 13, fun v => some (FieldValue.dec (pic11v99 v))⟩,
   ⟨"PREMED", 13, fun v => some (FieldValue.dec (pic11v99 v))⟩,
   ⟨"PREULT", 13, fun v => some (FieldValue.dec (pic11v99 v))⟩,
   ⟨"PREOFC", 13, fun v => some (FieldValue.dec (pic11v99 v))⟩,
   ⟨"PREOFV", 13, fun v => some (FieldValue.dec (pic11v99 v))⟩,
   ⟨"TOTNEG", 5, fun v => (pyInt v).map FieldValue.intVal⟩,
   ⟨"QUATOT", 18, fun v => (pyInt v).map FieldValue.intVal⟩,
   ⟨"VOLTOT", 18, fun v => some (FieldValue.dec (pic16v99 v))⟩,
   ⟨"PREEXE", 13, fun v => some (FieldValue.dec (pic11v99 v))⟩,
   ⟨"INDOPC", 1, fun v => (pyInt v).bind (fun n =>
      if n = 0 then some (FieldValue.correction none)
      else if E.contractCorrection n then some (FieldValue.correction (some n)) else none)⟩,
   ⟨"DATVEN", 8, fun v => (date_from_string v).map FieldValue.pyDate⟩,
   ⟨"FATCOT", 7, fun v => (pyInt v).bind (fun n =>
      if E.quoteSize n then some (FieldValue.quoteSize n) else none)⟩,
   ⟨"PTOEXE", 13, fun v => some (FieldValue.dec (pic7v06 v))⟩,
   ⟨"CODISI", 12, fun v => some (FieldValue.text v)⟩,
   ⟨"DISMES", 3, fun v => (pyInt v).map FieldValue.intVal⟩]

/-- The decoded field map: a Python dict keyed by field name. -/
abbrev FieldMap := List (String × FieldValue)

/-- First-match lookup in an association list (dict subscript / dict.get). -/
def lookupA {α : Type} : List (String × α) → String → Option α
  | [], _ => none
  | (k0, v) :: rest, k => if k0 = k then some v else lookupA rest k

/-- Python dict assignment d[k] = v: update in place, preserving insertion
order, appending when the key is new. -/
def mapInsert : FieldMap → String → FieldValue → FieldMap
  | [], k, v => [(k, v)]
  | (k0, v0) :: rest, k, v =>
    if k0 = k then (k0, v) :: rest else (k0, v0) :: mapInsert rest k v

/-- The loop state of _parse_quotes_line: the cursor and the values dict. -/
structure ParseState where
  pos : ℕ
  values : FieldMap

/-- One iteration of the _parse_quotes_line loop: slice [pos, pos+size), strip,
call the factory; on success store under the field name and advance the cursor
to stop, on a caught ValueError/IndexError leave both untouched (the slice
itself can never raise). -/
def parseFieldStep (line : String) (st : ParseState) (f : QuotesField) : ParseState :=
  let stop := st.pos + f.size
  match f.factory (pyStrip (pySlice line st.pos stop)) with
  | some v => ⟨stop, mapInsert st.values f.name v⟩
  | none => st

/-- src/b3/parsing/historical_quotes.py _parse_quotes_line. -/
def parse_quotes_line (E : B3Enums) (line : String) : FieldMap :=
  (List.foldl (parseFieldStep line) ⟨0, []⟩ (quotes_fields E)).values

/-- The record variants of _RegistryType. -/
inductive RegistryType where
  | header
  | quotes
  | trailer
deriving DecidableEq

/-- _RegistryType(code): "00", "01" and "99" are members, anything else raises
ValueError (modelled as `none`). -/
def registryOfCode (s : String) : Option RegistryType :=
  if s = "00" then some RegistryType.header
  else if s = "01" then some RegistryType.quotes
  else if s = "99" then some RegistryType.trailer
  else none

/-- The Python exceptions that appear in the embedded code paths. -/
inductive PyError where
  | valueError (msg : String)
  | keyError (key : String)
  | typeError (msg : String)
  | requestError (msg : String)
deriving DecidableEq

/-- src/b3/parsing/historical_quotes.py _parse_header_line. -/
def parse_header_line (_ : String) : FieldMap := []

/-- src/b3/parsing/historical_quotes.py _parse_trailer_line. -/
def parse_trailer_line (_ : String) : FieldMap := []

/-- src/b3/parsing/historical_quotes.py _parse_line: classify by the first two
characters and dispatch. An unrecognized code makes the _RegistryType call
itself raise ValueError (the explicit raise at the end of the source function
is unreachable), and nothing in _reader catches it. -/
def parse_line (E : B3Enums) (line : String) : Except PyError (RegistryType × FieldMap) :=
  match registryOfCode (pySlice line 0 2) with
  | none => Except.error (PyError.valueError
      ("\x27" ++ pySlice line 0 2 ++ "\x27 is not a valid _RegistryType"))
  | some RegistryType.header => Except.ok (RegistryType.header, parse_header_line (pyDropFirst2 line))
  | some RegistryType.quotes => Except.ok (RegistryType.quotes, parse_quotes_line E (pyDropFirst2 line))
  | some RegistryType.trailer => Except.ok (RegistryType.trailer, parse_trailer_line (pyDropFirst2 line))

/-- Dict subscript values[k]: KeyError when the key is absent. -/
def mapGetItem (values : FieldMap) (k : String) : Except PyError FieldValue :=
  match lookupA values k with
  | some v => Except.ok v
  | none => Except.error (PyError.keyError k)

/-- Modelled from the spec: the Quotes record of b3.datatypes (not under
src/) is the embedded quote sub-structure of the Daily Bulletin, a plain
immutable record of the seven quote fields; Python does not type-check the
stored values, so the fields hold whatever decoded value was assigned. -/
structure Quotes where
  open_ : FieldValue
  high : FieldValue
  low : FieldValue
  average : FieldValue
  close : FieldValue
  best_ask : FieldValue
  best_bid : FieldValue
deriving DecidableEq, Inhabited

/-- src/b3/parsing/historical_quotes.py _make_quotes: seven dict subscripts,
evaluated in source order, so the raised KeyError names the first absent
quote field. -/
def make_quotes (values : FieldMap) : Except PyError Quotes := do
  let o ← mapGetItem values "PREABE"
  let h ← mapGetItem values "PREMAX"
  let l ← mapGetItem values "PREMIN"
  let a ← mapGetItem values "PREMED"
  let c ← mapGetItem values "PREULT"
  let ba ← mapGetItem values "PREOFC"
  let bb ← mapGetItem values "PREOFV"
  return ⟨o, h, l, a, c, ba, bb⟩

/-- Modelled from the spec: the DailyBulletin record of b3.datatypes (not
under src/) is a plain immutable record; the assembler fills every field
except the quotes with dict.get, so absent fields arrive as `none` and the
constructor performs no validation (the typing casts in the source are
erased at runtime). -/
structure DailyBulletin where
  exchange_date : Option FieldValue
  type : Option FieldValue
  isin : Option FieldValue
  ticker : Option FieldValue
  market_type : Option FieldValue
  company_short_name : Option FieldValue
  especification : Option FieldValue
  forward_market_remaining_days : Option FieldValue
  reference_currency : Option FieldValue
  quotes : Quotes
  total_trade_market : Option FieldValue
  total_trade_count : Option FieldValue
  total_trade_volume : Option FieldValue
  strike_price : Option FieldValue
  strike_price_correction_type : Option FieldValue
  maturity_date : Option FieldValue
  quote_size : Option FieldValue
  strike_price_points : Option FieldValue
  distribution_number : Option FieldValue
deriving DecidableEq, Inhabited

/-- src/b3/parsing/historical_quotes.py _make_daily_bulleting (source
spelling kept). All dict.get calls are total, so evaluating the only fallible
subcomputation (_make_quotes) first preserves the source evaluation
semantics; the keyword arguments are listed in source order. -/
def make_daily_bulleting (values : FieldMap) : Except PyError DailyBulletin := do
  let q ← make_quotes values
  return { exchange_date := lookupA values "EXCDAT"
           type := lookupA values "CODBDI"
           isin := lookupA values "CODISI"
           ticker := lookupA values "CODNEG"
           market_type := lookupA values "TPMERC"
           company_short_name := lookupA values "NOMRES"
           especification := lookupA values "ESPECI"
           forward_market_remaining_days := lookupA values "PRAZOT"
           reference_currency := lookupA values "MODREF"
           quotes := q
           total_trade_market := lookupA values "TOTNEG"
           total_trade_count := lookupA values "QUATOT"
           total_trade_volume := lookupA values "VOLTOT"
           strike_price := lookupA values "PREEXE"
           strike_price_correction_type := lookupA values "INDOPC"
           maturity_date := lookupA values "DATVEN"
           quote_size := lookupA values "FATCOT"
           strike_price_points := lookupA values "PTOEXE"
           distribution_number := lookupA values "DISMES" }

/-- src/b3/parsing/historical_quotes.py _reader, as a function on the list of
stream lines: the records yielded before the generator finishes or dies, and
the exception (if any) that escapes to the consumer. Only the
_make_daily_bulleting call sits inside the try, and its only possible
exception here is a KeyError, which the except clause catches; an exception
from _parse_line escapes and ends the stream. -/
def reader (E : B3Enums) : List String → List DailyBulletin × Option PyError
  | [] => ([], none)
  | line :: rest =>
    match parse_line E line with
    | Except.error e => ([], some e)
    | Except.ok rv =>
      if rv.1 = RegistryType.quotes then
        match make_daily_bulleting rv.2 with
        | Except.ok b =>
          let r := reader E rest
          (b :: r.1, r.2)
        | Except.error _ => reader E rest
      else reader E rest

/-- Total width of the 25 fields: 243 payload characters (245 with the
record-type code). -/
def quotesLineWidth : ℕ := 243

/-- The final cursor position after decoding a payload. Every field either
advances the cursor by its full width or not at all, so the cursor reaches
243 exactly when all 25 decoders accepted their slices. -/
def parsedEndPos (E : B3Enums) (payload : String) : ℕ :=
  (List.foldl (parseFieldStep payload) ⟨0, []⟩ (quotes_fields E)).pos

/-- A well-formed data line: the "01" code followed by a payload on which
every field decoder succeeds. -/
def wellFormedDataLine (E : B3Enums) (line : String) : Bool :=
  pySlice line 0 2 == "01" && parsedEndPos E (pyDropFirst2 line) == quotesLineWidth

/-- The Daily Bulletin a data line assembles to (used to state stream-level
theorems; assembly is proved total for data lines, the default is never
reached). -/
def recordOfDataLine (E : B3Enums) (line : String) : DailyBulletin :=
  match make_daily_bulleting (parse_quotes_line E (pyDropFirst2 line)) with
  | Except.ok b => b
  | Except.error _ => default

/-- A sample enumeration instance (one member per enumeration), used for the
concrete witnesses and counterexamples. -/
def E0 : B3Enums :=
  ⟨fun n => n == 2, fun s => s == "010", fun n => n == 1, fun n => n == 1⟩

/-- A fully well-formed 245-character data line, pieced together field by
field: EXCDAT, CODBDI, CODNEG, TPMERC, NOMRES, ESPECI, PRAZOT, MODREF, the
seven quote prices, TOTNEG, QUATOT, VOLTOT, PREEXE, INDOPC, DATVEN, FATCOT,
PTOEXE, CODISI, DISMES. -/
def goodLine : String :=
  "01" ++ "20230102" ++ "02" ++ "PETR4       " ++ "010" ++ "PETROBRAS   " ++
  "PN        " ++ "   " ++ "R$  " ++ "0000000001050" ++ "0000000001099" ++
  "0000000001001" ++ "0000000001050" ++ "0000000001075" ++ "0000000001040" ++
  "0000000001080" ++ "00005" ++ "000000000000000100" ++ "000000000000105000" ++
  "0000000000000" ++ "0" ++ "20231215" ++ "0000001" ++ "0000000000000" ++
  "BRPETRACNPR6" ++ "145"

/-- Modelled from the spec: the order in which §4.2 lists the 25 fields
(PREEXE listed among the eight width-13 price fields, before TOTNEG). -/
def specFieldNames : List String :=
  ["EXCDAT", "CODBDI", "CODNEG", "TPMERC", "NOMRES", "ESPECI", "PRAZOT", "MODREF",
   "PREABE", "PREMAX", "PREMIN", "PREMED", "PREULT", "PREOFC", "PREOFV", "PREEXE",
   "TOTNEG", "QUATOT", "VOLTOT", "INDOPC", "DATVEN", "FATCOT", "PTOEXE", "CODISI",
   "DISMES"]

/-- The required quote fields, in the order _make_quotes reads them. -/
def quoteKeys : List String :=
  ["PREABE", "PREMAX", "PREMIN", "PREMED", "PREULT", "PREOFC", "PREOFV"]

/-- First key of a list that is absent from the map (the field whose lookup
would raise first). -/
def firstMissing : List String → FieldMap → Option String
  | [], _ => none
  | k :: ks, m => if (lookupA m k).isSome then firstMissing ks m else some k

/-- A JSON value, as handed back by response.json(). -/
inductive Json where
  | str (s : String)
  | num (n : ℤ)
  | jbool (b : Bool)
  | null
  | arr (elems : List Json)
  | obj (fields : List (String × Json))

/-- Modelled from the spec: what it means for the dot-inserted text to be
parseable "as a number" (§4.1), stated declaratively and independently of
the parser: after the Decimal cleaning, an optional sign, a digit run, the
single dot, a further digit run (at least one digit in the two runs
together), and an optional exponent made of the letter e or E, an optional
sign and a nonempty digit run. -/
def specNumeralShape (l : List Char) : Prop :=
  ∃ sg d1 d2 ex : List Char,
    l = sg ++ (d1 ++ '.' :: (d2 ++ ex)) ∧
    (sg = [] ∨ sg = ['+'] ∨ sg = ['-']) ∧
    (∀ c ∈ d1, isDigitChar c = true) ∧ (∀ c ∈ d2, isDigitChar c = true) ∧
    ¬(d1 = [] ∧ d2 = []) ∧
    (ex = [] ∨ ∃ e0 : Char, ∃ sg2 d3 : List Char,
      ex = e0 :: (sg2 ++ d3) ∧ (e0 = 'e' ∨ e0 = 'E') ∧
      (sg2 = [] ∨ sg2 = ['+'] ∨ sg2 = ['-']) ∧ d3 ≠ [] ∧
      ∀ c ∈ d3, isDigitChar c = true)

/-- strptime %H, two-character alternatives 2[0-3] and [0-1]d. -/
def hour2 (a b : Char) : Option ℕ :=
  if a = '2' ∧ (b = '0' ∨ b = '1' ∨ b = '2' ∨ b = '3') then some (20 + digitVal b)
  else if (a = '0' ∨ a = '1') ∧ isDigitChar b then some (10 * digitVal a + digitVal b)
  else none

/-- strptime single-digit alternative d, used by %H, %M and %S. -/
def num1 (a : Char) : Option ℕ := if isDigitChar a then some (digitVal a) else none

/-- strptime %M, two-character alternative [0-5]d. -/
def minute2 (a b : Char) : Option ℕ :=
  if ('0' ≤ a ∧ a ≤ '5') ∧ isDigitChar b then some (10 * digitVal a + digitVal b) else none

/-- strptime %S, two-character alternatives 6[0-1] and [0-5]d. -/
def second2 (a b : Char) : Option ℕ :=
  if a = '6' ∧ (b = '0' ∨ b = '1') then some (60 + digitVal b)
  else if ('0' ≤ a ∧ a ≤ '5') ∧ isDigitChar b then some (10 * digitVal a + digitVal b)
  else none

/-- Candidates for a one-or-two-character strptime token, in regex preference
order (longer alternative first), each with the remaining input. -/
def tokCands (t2 : Char → Char → Option ℕ) (t1 : Char → Option ℕ) :
    List Char → List (ℕ × List Char)
  | a :: b :: rest =>
    (match t2 a b with | some v => [(v, rest)] | none => []) ++
      (match t1 a with | some v => [(v, b :: rest)] | none => [])
  | [a] => (match t1 a with | some v => [(v, [])] | none => [])
  | [] => []

/-- Consume one literal character. -/
def expectChar (c : Char) : List Char → Option (List Char)
  | a :: rest => if a = c then some rest else none
  | [] => none

/-- A timestamp as produced by datetime.datetime. -/
structure PyDateTime where
  y : ℕ
  m : ℕ
  d : ℕ
  hh : ℕ
  mi : ℕ
  ss : ℕ
deriving DecidableEq

/-- datetime.datetime.strptime(s, "%d/%m/%Y %H:%M:%S"): the strptime token
regexes with literal separators (backtracking into a token when the following
literal fails to match), no text left over, and the datetime validity checks
(year at least 1, day within month, seconds at most 59 even though the %S
regex admits 60 and 61). -/
def strptimeDmyHms (s : String) : Option PyDateTime :=
  (tokCands day2 day1 s.data).findSome? fun dc =>
    (expectChar '/' dc.2).bind fun r2 =>
      (tokCands month2 month1 r2).findSome? fun mc =>
        (expectChar '/' mc.2).bind fun r4 =>
          match r4 with
          | y1 :: y2 :: y3 :: y4 :: r5 =>
            if isDigitChar y1 && isDigitChar y2 && isDigitChar y3 && isDigitChar y4 then
              (expectChar ' ' r5).bind fun r6 =>
                (tokCands hour2 num1 r6).findSome? fun hc =>
                  (expectChar ':' hc.2).bind fun r8 =>
                    (tokCands minute2 num1 r8).findSome? fun mic =>
                      (expectChar ':' mic.2).bind fun r10 =>
                        (tokCands second2 num1 r10).findSome? fun sc =>
                          let y := 1000 * digitVal y1 + 100 * digitVal y2 +
                            10 * digitVal y3 + digitVal y4
                          if sc.2 = [] ∧ 1 ≤ y ∧ dc.1 ≤ daysInMonth y mc.1 ∧ sc.1 ≤ 59 then
                            some ⟨y, mc.1, dc.1, hc.1, mic.1, sc.1⟩
                          else none
            else none
          | _ => none

/-- Modelled from the spec: the SecurityCode pair of b3.datatypes (not under
src/), a plain record of the code and isin entries. -/
structure SecurityCode where
  code : Json
  isin : Json

/-- Modelled from the spec: the CompanyDetail record of b3.datatypes (not
under src/), a plain record of the looked-up response entries, with the
keyword names of the company_detail call site. -/
structure CompanyDetail where
  cnpj : Json
  cvm_code : Json
  company_name : Json
  company_code : Json
  trading_name : Json
  activity : Json
  industry : Json
  market : Json
  market_indicator : Json
  has_bdr : Json
  bdr_type : Json
  has_emissions : Json
  has_quotation : Json
  common_institution : Json
  preferred_institution : Json
  status : Json
  website : Json
  last_date : PyDateTime
  bvmf_describle_category : Json
  security_codes : List SecurityCode

/-- Python iteration over a JSON value: lists yield their elements, strings
their characters, dicts their keys; numbers, booleans and null raise
TypeError. -/
def pyIterate (j : Json) : Except PyError (List Json) :=
  match j with
  | Json.arr xs => Except.ok xs
  | Json.str s => Except.ok (s.data.map (fun c => Json.str ⟨[c]⟩))
  | Json.obj fs => Except.ok (fs.map (fun kv => Json.str kv.1))
  | _ => Except.error (PyError.typeError "object is not iterable")

/-- Subscript elem[k] on a JSON value: KeyError on a dict without the key,
TypeError on anything that is not a dict. -/
def jsonGetItem (j : Json) (k : String) : Except PyError Json :=
  match j with
  | Json.obj fs =>
    match lookupA fs k with
    | some v => Except.ok v
    | none => Except.error (PyError.keyError k)
  | _ => Except.error (PyError.typeError "value is not subscriptable by str")

/-- The body of the otherCodes loop: each element contributes a SecurityCode;
a KeyError from elem subscripting is caught by the surrounding except clause
(keeping the codes collected so far), while a TypeError propagates. -/
def gatherLoop : List Json → List SecurityCode → Except PyError (List SecurityCode)
  | [], acc => Except.ok acc
  | e :: rest, acc =>
    match jsonGetItem e "code" with
    | Except.error (PyError.keyError _) => Except.ok acc
    | Except.error err => Except.error err
    | Except.ok c =>
      match jsonGetItem e "isin" with
      | Except.error (PyError.keyError _) => Except.ok acc
      | Except.error err => Except.error err
      | Except.ok i => gatherLoop rest (acc ++ [⟨c, i⟩])

/-- The try/except KeyError block of company_detail that fills
security_codes: a missing otherCodes key is caught and leaves the list empty;
a TypeError from iterating a non-iterable value is not caught. -/
def gatherSecurityCodes (response : List (String × Json)) :
    Except PyError (List SecurityCode) :=
  match lookupA response "otherCodes" with
  | none => Except.ok []
  | some oc =>
    match pyIterate oc with
    | Except.error err => Except.error err
    | Except.ok elems => gatherLoop elems []

/-- Subscript response[k] on the decoded JSON object. -/
def objItem (response : List (String × Json)) (k : String) : Except PyError Json :=
  match lookupA response k with
  | some v => Except.ok v
  | none => Except.error (PyError.keyError k)

/-- datetime.datetime.strptime(response["lastDate"], "%d/%m/%Y %H:%M:%S"):
TypeError on a non-string, ValueError when the text does not match. -/
def parseLastDate (j : Json) : Except PyError PyDateTime :=
  match j with
  | Json.str s =>
    match strptimeDmyHms s with
    | some dt => Except.ok dt
    | none => Except.error (PyError.valueError "time data does not match format")
  | _ => Except.error (PyError.typeError "strptime argument must be str")

/-- The CompanyDetail construction of src/b3/net/query.py: the keyword
arguments are evaluated in source order, so the first absent key raises. -/
def buildCompanyDetail (response : List (String × Json))
    (security_codes : List SecurityCode) : Except PyError CompanyDetail := do
  let cnpj ← objItem response "cnpj"
  let cvm_code ← objItem response "codeCVM"
  let company_name ← objItem response "companyName"
  let company_code ← objItem response "issuingCompany"
  let trading_name ← objItem response "tradingName"
  let activity ← objItem response "activity"
  let industry ← objItem response "industryClassification"
  let market ← objItem response "market"
  let market_indicator ← objItem response "marketIndicator"
  let has_bdr ← objItem response "hasBDR"
  let bdr_type ← objItem response "typeBDR"
  let has_emissions ← objItem response "hasEmissions"
  let has_quotation ← objItem response "hasQuotation"
  let common_institution ← objItem response "institutionCommon"
  let preferred_institution ← objItem response "institutionPreferred"
  let status ← objItem response "status"
  let website ← objItem response "website"
  let last_date_raw ← objItem response "lastDate"
  let last_date ← parseLastDate last_date_raw
  let bvmf ← objItem response "describleCategoryBVMF"
  return ⟨cnpj, cvm_code, company_name, company_code, trading_name, activity,
    industry, market, market_indicator, has_bdr, bdr_type, has_emissions,
    has_quotation, common_institution, preferred_institution, status, website,
    last_date, bvmf, security_codes⟩

/-- src/b3/net/query.py company_detail, from the decoded JSON object onward
(the HTTP call is the collaborator boundary; its decoded response is the
argument). An empty response raises RequestError naming the queried code;
the CompanyDetail construction is wrapped so that a KeyError becomes a
RequestError naming the key, while other exceptions (the strptime ValueError,
a TypeError from a malformed otherCodes value) propagate unchanged. -/
def company_detail (cvm_code : String) (response : List (String × Json)) :
    Except PyError CompanyDetail :=
  if response.length = 0 then
    Except.error (PyError.requestError ("no company found with CVM code " ++ cvm_code))
  else
    match gatherSecurityCodes response with
    | Except.error err => Except.error err
    | Except.ok security_codes =>
      match buildCompanyDetail response security_codes with
      | Except.ok detail => Except.ok detail
      | Except.error (PyError.keyError k) =>
        Except.error (PyError.requestError ("Missing key \x27" ++ k ++ "\x27"))
      | Except.error err => Except.error err

/-! ## Helper lemmas -/

theorem except_bind_ok {ε α β : Type} (a : α) (f : α → Except ε β) :
    (Except.ok a >>= f : Except ε β) = f a := rfl

theorem except_bind_error {ε α β : Type} (e : ε) (f : α → Except ε β) :
    (Except.error e >>= f : Except ε β) = Except.error e := rfl

theorem except_pure {ε α : Type} (a : α) : (pure a : Except ε α) = Except.ok a := rfl

theorem lookupA_mapInsert_self (m : FieldMap) (k : String) (v : FieldValue) :
    lookupA (mapInsert m k v) k = some v := by
  induction m with
  | nil => simp [mapInsert, lookupA]
  | cons p rest ih =>
    obtain ⟨k0, v0⟩ := p
    by_cases h : k0 = k
    · simp [mapInsert, lookupA, h]
    · simp [mapInsert, lookupA, h, ih]

theorem lookupA_mapInsert_ne (m : FieldMap) (k0 k : String) (v : FieldValue)
    (h : k0 ≠ k) : lookupA (mapInsert m k0 v) k = lookupA m k := by
  induction m with
  | nil => simp [mapInsert, lookupA, h]
  | cons p rest ih =>
    obtain ⟨k1, v1⟩ := p
    by_cases h1 : k1 = k0
    · subst h1
      simp [mapInsert, lookupA, h]
    · simp [mapInsert, lookupA, h1, ih]

theorem lookupA_isSome_mapInsert (m : FieldMap) (k0 k : String) (v : FieldValue)
    (h : (lookupA m k).isSome = true) :
    (lookupA (mapInsert m k0 v) k).isSome = true := by
  by_cases hk : k0 = k
  · subst hk; simp [lookupA_mapInsert_self]
  · rwa [lookupA_mapInsert_ne m k0 k v hk]

theorem parseFieldStep_preserves (line : String) (st : ParseState) (f : QuotesField)
    (k : String) (h : (lookupA st.values k).isSome = true) :
    (lookupA (parseFieldStep line st f).values k).isSome = true := by
  simp only [parseFieldStep]
  cases hf : f.factory (pyStrip (pySlice line st.pos (st.pos + f.size))) with
  | none => simpa using h
  | some v => simpa using lookupA_isSome_mapInsert st.values f.name k v h

theorem keys_present_foldl (line : String) (fs : List QuotesField) (st : ParseState)
    (k : String)
    (h : (lookupA st.values k).isSome = true ∨
      ∃ f ∈ fs, f.name = k ∧ ∀ s, (f.factory s).isSome = true) :
    (lookupA (List.foldl (parseFieldStep line) st fs).values k).isSome = true := by
  induction fs generalizing st with
  | nil =>
    rcases h with h | ⟨f, hf, _⟩
    · exact h
    · simp at hf
  | cons f fs ih =>
    simp only [List.foldl_cons]
    rcases h with h | ⟨g, hg, hname, htot⟩
    · exact ih _ (Or.inl (parseFieldStep_preserves line st f k h))
    · rcases List.mem_cons.mp hg with rfl | hg'
      · apply ih
        left
        have htot' := htot (pyStrip (pySlice line st.pos (st.pos + g.size)))
        simp only [parseFieldStep]
        cases hf : g.factory (pyStrip (pySlice line st.pos (st.pos + g.size))) with
        | none => rw [hf] at htot'; simp at htot'
        | some v =>
          subst hname
          simp [lookupA_mapInsert_self st.values g.name v]
      · exact ih _ (Or.inr ⟨g, hg', hname, htot⟩)

theorem quote_keys_present (E : B3Enums) (payload : String) (k : String)
    (hk : k ∈ quoteKeys) :
    (lookupA (parse_quotes_line E payload) k).isSome = true := by
  have main : ∀ f : QuotesField, f ∈ quotes_fields E → f.name = k →
      (∀ s, (f.factory s).isSome = true) →
      (lookupA (parse_quotes_line E payload) k).isSome = true := by
    intro f hf hname htot
    exact keys_present_foldl payload (quotes_fields E) ⟨0, []⟩ k (Or.inr ⟨f, hf, hname, htot⟩)
  fin_cases hk
  · exact main ⟨"PREABE", 13, fun v => some (FieldValue.dec (pic11v99 v))⟩
      (by simp [quotes_fields]) rfl (fun s => rfl)
  · exact main ⟨"PREMAX", 13, fun v => some (FieldValue.dec (pic11v99 v))⟩
      (by simp [quotes_fields]) rfl (fun s => rfl)
  · exact main ⟨"PREMIN", 13, fun v => some (FieldValue.dec (pic11v99 v))⟩
      (by simp [quotes_fields]) rfl (fun s => rfl)
  · exact main ⟨"PREMED", 13, fun v => some (FieldValue.dec (pic11v99 v))⟩
      (by simp [quotes_fields]) rfl (fun s => rfl)
  · exact main ⟨"PREULT", 13, fun v => some (FieldValue.dec (pic11v99 v))⟩
      (by simp [quotes_fields]) rfl (fun s => rfl)
  · exact main ⟨"PREOFC", 13, fun v => some (FieldValue.dec (pic11v99 v))⟩
      (by simp [quotes_fields]) rfl (fun s => rfl)
  · exact main ⟨"PREOFV", 13, fun v => some (FieldValue.dec (pic11v99 v))⟩
      (by simp [quotes_fields]) rfl (fun s => rfl)

theorem make_quotes_total (E : B3Enums) (payload : String) :
    ∃ q, make_quotes (parse_quotes_line E payload) = Except.ok q := by
  obtain ⟨v1, h1⟩ := Option.isSome_iff_exists.mp
    (quote_keys_present E payload "PREABE" (by simp [quoteKeys]))
  obtain ⟨v2, h2⟩ := Option.isSome_iff_exists.mp
    (quote_keys_present E payload "PREMAX" (by simp [quoteKeys]))
  obtain ⟨v3, h3⟩ := Option.isSome_iff_exists.mp
    (quote_keys_present E payload "PREMIN" (by simp [quoteKeys]))
  obtain ⟨v4, h4⟩ := Option.isSome_iff_exists.mp
    (quote_keys_present E payload "PREMED" (by simp [quoteKeys]))
  obtain ⟨v5, h5⟩ := Option.isSome_iff_exists.mp
    (quote_keys_present E payload "PREULT" (by simp [quoteKeys]))
  obtain ⟨v6, h6⟩ := Option.isSome_iff_exists.mp
    (quote_keys_present E payload "PREOFC" (by simp [quoteKeys]))
  obtain ⟨v7, h7⟩ := Option.isSome_iff_exists.mp
    (quote_keys_present E payload "PREOFV" (by simp [quoteKeys]))
  refine ⟨⟨v1, v2, v3, v4, v5, v6, v7⟩, ?_⟩
  simp [make_quotes, mapGetItem, h1, h2, h3, h4, h5, h6, h7,
    except_bind_ok, except_pure]

theorem make_daily_bulleting_total (E : B3Enums) (payload : String) :
    ∃ b, make_daily_bulleting (parse_quotes_line E payload) = Except.ok b := by
  obtain ⟨q, hq⟩ := make_quotes_total E payload
  unfold make_daily_bulleting
  rw [hq]
  exact ⟨_, rfl⟩

/-! ## Claim C8: cursor discipline of the line decoder -/

/-- Claim C8. While decoding a data line field by field, a field whose decode
function accepts its slice advances the cursor by exactly the field width and
stores the value under the field name; a field whose decode function rejects
its slice leaves the state untouched, so the next field is sliced from the
same position. -/
theorem c8_thm (line : String) (st : ParseState) (f : QuotesField)
    (rest : List QuotesField) :
    (∀ v, f.factory (pyStrip (pySlice line st.pos (st.pos + f.size))) = some v →
        parseFieldStep line st f = ⟨st.pos + f.size, mapInsert st.values f.name v⟩) ∧
      (f.factory (pyStrip (pySlice line st.pos (st.pos + f.size))) = none →
        parseFieldStep line st f = st ∧
          List.foldl (parseFieldStep line) st (f :: rest) =
            List.foldl (parseFieldStep line) st rest) := by
  constructor
  · intro v hv
    simp only [parseFieldStep]
    rw [hv]
  · intro hv
    have hstep : parseFieldStep line st f = st := by
      simp only [parseFieldStep]
      rw [hv]
    exact ⟨hstep, by simp [List.foldl_cons, hstep]⟩

/-- Witness for C8: a two-character text field accepting its slice advances
the cursor from 0 to 2 and stores the value; a rejecting factory leaves the
state at cursor 0 with an empty dict. -/
theorem c8_witness :
    parseFieldStep "ab" ⟨0, []⟩ ⟨"F", 2, fun s => some (FieldValue.text s)⟩ =
        ⟨2, [("F", FieldValue.text "ab")]⟩ ∧
      parseFieldStep "xy" ⟨0, []⟩ ⟨"G", 2, fun _ => none⟩ = ⟨0, []⟩ := by
  constructor
  · exact (c8_thm "ab" ⟨0, []⟩ ⟨"F", 2, fun s => some (FieldValue.text s)⟩ []).1
      (FieldValue.text "ab") rfl
  · exact ((c8_thm "xy" ⟨0, []⟩ ⟨"G", 2, fun _ => none⟩ []).2 rfl).1

/-! ## Claim C3: content and order of the field specification table -/

/-- Counterexample for C3: the table order of the source differs from the
order listed in the spec; at position 15 the source table has TOTNEG where
the spec list has PREEXE. -/
theorem c3_counterexample :
    (quotes_fields E0).map QuotesField.name ≠ specFieldNames ∧
      ((quotes_fields E0).map QuotesField.name).get? 15 = some "TOTNEG" ∧
      specFieldNames.get? 15 = some "PREEXE" := by
  refine ⟨?_, rfl, rfl⟩
  decide

/-- Claim C3 as amended. For every enumeration instance the table has exactly
25 entries; the names and widths, in order, are those of the source, with
PREEXE (width 13, picture-decimal with split point 11, hence two fractional
digits) at position 18, immediately after VOLTOT and before INDOPC rather
than between PREOFV and TOTNEG. -/
theorem c3_thm (E : B3Enums) :
    (quotes_fields E).length = 25 ∧
      (quotes_fields E).map QuotesField.name =
        ["EXCDAT", "CODBDI", "CODNEG", "TPMERC", "NOMRES", "ESPECI", "PRAZOT", "MODREF",
         "PREABE", "PREMAX", "PREMIN", "PREMED", "PREULT", "PREOFC", "PREOFV", "TOTNEG",
         "QUATOT", "VOLTOT", "PREEXE", "INDOPC", "DATVEN", "FATCOT", "PTOEXE", "CODISI",
         "DISMES"] ∧
      (quotes_fields E).map QuotesField.size =
        [8, 2, 12, 3, 12, 10, 3, 4, 13, 13, 13, 13, 13, 13, 13, 5, 18, 18, 13, 1, 8, 7,
         13, 12, 3] ∧
      ((quotes_fields E).get? 18).map QuotesField.name = some "PREEXE" ∧
      ((quotes_fields E).get? 18).map QuotesField.size = some 13 ∧
      ∀ s, ((quotes_fields E).get? 18).map (fun f => f.factory s) =
        some (some (FieldValue.dec (pic11v99 s))) :=
  ⟨rfl, rfl, rfl, rfl, rfl, fun _ => rfl⟩

/-! ## Claim C4: which absent fields make assembly fail -/

/-- Counterexample for C4: a field map missing the exchange date (and every
other non-quote required field) but containing the seven quote fields is
assembled without any missing-field error. -/
theorem c4_counterexample :
    lookupA [("PREABE", FieldValue.dec none), ("PREMAX", FieldValue.dec none),
      ("PREMIN", FieldValue.dec none), ("PREMED", FieldValue.dec none),
      ("PREULT", FieldValue.dec none), ("PREOFC", FieldValue.dec none),
      ("PREOFV", FieldValue.dec none)] "EXCDAT" = none ∧
      ∃ b, make_daily_bulleting
        [("PREABE", FieldValue.dec none), ("PREMAX", FieldValue.dec none),
         ("PREMIN", FieldValue.dec none), ("PREMED", FieldValue.dec none),
         ("PREULT", FieldValue.dec none), ("PREOFC", FieldValue.dec none),
         ("PREOFV", FieldValue.dec none)] = Except.ok b :=
  ⟨rfl, ⟨_, rfl⟩⟩

/-- Claim C4 as amended. Assembly checks only the seven quote fields: when
the first quote key (in the order _make_quotes reads them) absent from the
map is k, assembly fails with a KeyError naming k; when all seven are
present, assembly succeeds regardless of every other field, including the
exchange date and the code fields. -/
theorem c4_thm (values : FieldMap) :
    (firstMissing quoteKeys values = none →
        ∃ b, make_daily_bulleting values = Except.ok b) ∧
      ∀ k, firstMissing quoteKeys values = some k →
        make_daily_bulleting values = Except.error (PyError.keyError k) := by
  cases h1 : lookupA values "PREABE" with
  | none =>
    constructor
    · intro hnone; simp [firstMissing, quoteKeys, h1] at hnone
    · intro k hk
      simp [firstMissing, quoteKeys, h1] at hk
      subst hk
      simp [make_daily_bulleting, make_quotes, mapGetItem, h1,
        except_bind_ok, except_bind_error, except_pure]
  | some v1 =>
  cases h2 : lookupA values "PREMAX" with
  | none =>
    constructor
    · intro hnone; simp [firstMissing, quoteKeys, h1, h2] at hnone
    · intro k hk
      simp [firstMissing, quoteKeys, h1, h2] at hk
      subst hk
      simp [make_daily_bulleting, make_quotes, mapGetItem, h1, h2,
        except_bind_ok, except_bind_error, except_pure]
  | some v2 =>
  cases h3 : lookupA values "PREMIN" with
  | none =>
    constructor
    · intro hnone; simp [firstMissing, quoteKeys, h1, h2, h3] at hnone
    · intro k hk
      simp [firstMissing, quoteKeys, h1, h2, h3] at hk
      subst hk
      simp [make_daily_bulleting, make_quotes, mapGetItem, h1, h2, h3,
        except_bind_ok, except_bind_error, except_pure]
  | some v3 =>
  cases h4 : lookupA values "PREMED" with
  | none =>
    constructor
    · intro hnone; simp [firstMissing, quoteKeys, h1, h2, h3, h4] at hnone
    · intro k hk
      simp [firstMissing, quoteKeys, h1, h2, h3, h4] at hk
      subst hk
      simp [make_daily_bulleting, make_quotes, mapGetItem, h1, h2, h3, h4,
        except_bind_ok, except_bind_error, except_pure]
  | some v4 =>
  cases h5 : lookupA values "PREULT" with
  | none =>
    constructor
    · intro hnone; simp [firstMissing, quoteKeys, h1, h2, h3, h4, h5] at hnone
    · intro k hk
      simp [firstMissing, quoteKeys, h1, h2, h3, h4, h5] at hk
      subst hk
      simp [make_daily_bulleting, make_quotes, mapGetItem, h1, h2, h3, h4, h5,
        except_bind_ok, except_bind_error, except_pure]
  | some v5 =>
  cases h6 : lookupA values "PREOFC" with
  | none =>
    constructor
    · intro hnone; simp [firstMissing, quoteKeys, h1, h2, h3, h4, h5, h6] at hnone
    · intro k hk
      simp [firstMissing, quoteKeys, h1, h2, h3, h4, h5, h6] at hk
      subst hk
      simp [make_daily_bulleting, make_quotes, mapGetItem, h1, h2, h3, h4, h5, h6,
        except_bind_ok, except_bind_error, except_pure]
  | some v6 =>
  cases h7 : lookupA values "PREOFV" with
  | none =>
    constructor
    · intro hnone; simp [firstMissing, quoteKeys, h1, h2, h3, h4, h5, h6, h7] at hnone
    · intro k hk
      simp [firstMissing, quoteKeys, h1, h2, h3, h4, h5, h6, h7] at hk
      subst hk
      simp [make_daily_bulleting, make_quotes, mapGetItem, h1, h2, h3, h4, h5, h6, h7,
        except_bind_ok, except_bind_error, except_pure]
  | some v7 =>
    constructor
    · intro _
      refine ⟨?_, ?_⟩
      · exact { exchange_date := lookupA values "EXCDAT"
                type := lookupA values "CODBDI"
                isin := lookupA values "CODISI"
                ticker := lookupA values "CODNEG"
                market_type := lookupA values "TPMERC"
                company_short_name := lookupA values "NOMRES"
                especification := lookupA values "ESPECI"
                forward_market_remaining_days := lookupA values "PRAZOT"
                reference_currency := lookupA values "MODREF"
                quotes := ⟨v1, v2, v3, v4, v5, v6, v7⟩
                total_trade_market := lookupA values "TOTNEG"
                total_trade_count := lookupA values "QUATOT"
                total_trade_volume := lookupA values "VOLTOT"
                strike_price := lookupA values "PREEXE"
                strike_price_correction_type := lookupA values "INDOPC"
                maturity_date := lookupA values "DATVEN"
                quote_size := lookupA values "FATCOT"
                strike_price_points := lookupA values "PTOEXE"
                distribution_number := lookupA values "DISMES" }
      · simp [make_daily_bulleting, make_quotes, mapGetItem, h1, h2, h3, h4, h5, h6, h7,
          except_bind_ok, except_bind_error, except_pure]
    · intro k hk
      simp [firstMissing, quoteKeys, h1, h2, h3, h4, h5, h6, h7] at hk

/-- Witness for C4: a map whose first absent quote key is PREMAX makes
assembly fail with a KeyError naming PREMAX. -/
theorem c4_witness :
    firstMissing quoteKeys [("PREABE", FieldValue.dec none)] = some "PREMAX" ∧
      make_daily_bulleting [("PREABE", FieldValue.dec none)] =
        Except.error (PyError.keyError "PREMAX") :=
  ⟨rfl, (c4_thm [("PREABE", FieldValue.dec none)]).2 "PREMAX" rfl⟩

/-! ## Claims C2, C5, C1: stream reader behaviour -/

/-- Counterexample for C2: the data line "01" (payload far shorter than the
243 characters the 25-field layout needs) is not skipped: the reader yields
one Daily Bulletin for it and raises nothing. -/
theorem c2_counterexample :
    ("01" : String).length = 2 ∧ 2 < quotesLineWidth ∧
      (reader E0 ["01"]).1.length = 1 ∧ (reader E0 ["01"]).2 = none :=
  ⟨rfl, by decide, rfl, rfl⟩

/-- Claim C2 as amended. Every line whose first two characters are "01"
yields exactly one Daily Bulletin and propagates no exception, however short
its payload: the picture-decimal decoders store an explicit no-value instead
of failing, so the seven quote fields are always present, and every other
absent field surfaces as no-value through dict.get. -/
theorem c2_thm (E : B3Enums) (line : String) (h : pySlice line 0 2 = "01") :
    ∃ b, reader E [line] = ([b], none) := by
  have hp : parse_line E line =
      Except.ok (RegistryType.quotes, parse_quotes_line E (pyDropFirst2 line)) := by
    unfold parse_line
    rw [h]
    rfl
  obtain ⟨b, hb⟩ := make_daily_bulleting_total E (pyDropFirst2 line)
  refine ⟨b, ?_⟩
  simp [reader, hp, hb]

/-- Witness for C2: the short line "01" itself. -/
theorem c2_witness :
    pySlice "01" 0 2 = "01" ∧ ∃ b, reader E0 ["01"] = ([b], none) :=
  ⟨rfl, c2_thm E0 "01" rfl⟩

/-- Data lines followed by a trailer: every data line contributes exactly its
record, the trailer contributes nothing, in order. -/
theorem reader_data_aux (E : B3Enums) (t : String) (ds : List String)
    (ht : pySlice t 0 2 = "99") (hd : ∀ l ∈ ds, pySlice l 0 2 = "01") :
    reader E (ds ++ [t]) = (ds.map (recordOfDataLine E), none) := by
  induction ds with
  | nil =>
    have hp : parse_line E t =
        Except.ok (RegistryType.trailer, parse_trailer_line (pyDropFirst2 t)) := by
      unfold parse_line
      rw [ht]
      rfl
    simp [reader, hp]
  | cons l ds ih =>
    have hl : pySlice l 0 2 = "01" := hd l (List.mem_cons_self l ds)
    have hp : parse_line E l =
        Except.ok (RegistryType.quotes, parse_quotes_line E (pyDropFirst2 l)) := by
      unfold parse_line
      rw [hl]
      rfl
    obtain ⟨b, hb⟩ := make_daily_bulleting_total E (pyDropFirst2 l)
    have hrec : recordOfDataLine E l = b := by
      unfold recordOfDataLine
      rw [hb]
    simp [reader, hp, hb, hrec, ih (fun x hx => hd x (List.mem_cons_of_mem l hx))]

/-- Claim C5. A stream of one Header line, N well-formed Data lines and one
Trailer line yields exactly the N Daily Bulletins of the data lines, one per
line and in the original order; the Header and Trailer lines yield nothing. -/
theorem c5_thm (E : B3Enums) (hdr tr : String) (ds : List String)
    (hh : pySlice hdr 0 2 = "00") (ht : pySlice tr 0 2 = "99")
    (hd : ∀ l ∈ ds, wellFormedDataLine E l = true) :
    reader E (hdr :: (ds ++ [tr])) = (ds.map (recordOfDataLine E), none) ∧
      (ds.map (recordOfDataLine E)).length = ds.length := by
  have hp : parse_line E hdr =
      Except.ok (RegistryType.header, parse_header_line (pyDropFirst2 hdr)) := by
    unfold parse_line
    rw [hh]
    rfl
  have hd' : ∀ l ∈ ds, pySlice l 0 2 = "01" := by
    intro l hl
    have hwf := hd l hl
    simp only [wellFormedDataLine, Bool.and_eq_true, beq_iff_eq] at hwf
    exact hwf.1
  refine ⟨?_, List.length_map ds (recordOfDataLine E)⟩
  simp [reader, hp, reader_data_aux E tr ds ht hd']

/-- Witness for C5: a concrete three-line stream around one fully well-formed
245-character data line. -/
theorem c5_witness :
    pySlice "00HEADER" 0 2 = "00" ∧ pySlice "99TRAILER" 0 2 = "99" ∧
      wellFormedDataLine E0 goodLine = true ∧
      reader E0 ["00HEADER", goodLine, "99TRAILER"] =
        ([recordOfDataLine E0 goodLine], none) := by
  have hwf : wellFormedDataLine E0 goodLine = true := by decide
  have h := c5_thm E0 "00HEADER" "99TRAILER" [goodLine] rfl rfl
    (by intro l hl; rw [List.mem_singleton.mp hl]; exact hwf)
  exact ⟨rfl, rfl, hwf, h.1⟩

/-- Counterexample for C1: a stream whose first line carries the unrecognized
code "XY", followed by a fully well-formed data line. The reader does not
skip the bad line: it yields no record at all (the well-formed line is never
reached) and the ValueError from the record classifier escapes to the
consumer. -/
theorem c1_counterexample :
    registryOfCode (pySlice "XY123" 0 2) = none ∧
      wellFormedDataLine E0 goodLine = true ∧
      reader E0 ["XY123", goodLine] =
        ([], some (PyError.valueError "\x27XY\x27 is not a valid _RegistryType")) :=
  ⟨rfl, by decide, rfl⟩

/-- Claim C1 as amended. A line whose first two characters are not one of
"00", "01", "99" is not skipped: the ValueError raised while classifying it
escapes the generator to the consumer, the stream ends there, and no later
line (well formed or not) produces a record. -/
theorem c1_thm (E : B3Enums) (line : String) (rest : List String)
    (h : registryOfCode (pySlice line 0 2) = none) :
    reader E (line :: rest) =
      ([], some (PyError.valueError
        ("\x27" ++ pySlice line 0 2 ++ "\x27 is not a valid _RegistryType"))) := by
  have hp : parse_line E line = Except.error (PyError.valueError
      ("\x27" ++ pySlice line 0 2 ++ "\x27 is not a valid _RegistryType")) := by
    unfold parse_line
    rw [h]
  simp [reader, hp]

/-- Witness for C1: the concrete bad line "XY123" in front of a further line. -/
theorem c1_witness :
    registryOfCode (pySlice "XY123" 0 2) = none ∧
      reader E0 ["XY123", "01"] =
        ([], some (PyError.valueError "\x27XY\x27 is not a valid _RegistryType")) :=
  ⟨rfl, c1_thm E0 "XY123" ["01"] rfl⟩

/-! ## Claim C6: exactness of the picture-decimal decoder on digit strings -/

theorem dropWhile_eq_self_of_all {p : Char → Bool} {l : List Char}
    (h : ∀ c ∈ l, p c = false) : List.dropWhile p l = l := by
  cases l with
  | nil => rfl
  | cons a t => simp [List.dropWhile, h a (List.mem_cons_self a t)]

theorem stripList_eq_self {l : List Char} (h : ∀ c ∈ l, isPyWs c = false) :
    stripList l = l := by
  unfold stripList
  rw [dropWhile_eq_self_of_all h,
    dropWhile_eq_self_of_all (fun c hc => h c (List.mem_reverse.mp hc)),
    List.reverse_reverse]

theorem takeWhile_append_cons {p : Char → Bool} (a : List Char) (x : Char) (t : List Char)
    (ha : ∀ c ∈ a, p c = true) (hx : p x = false) :
    List.takeWhile p (a ++ x :: t) = a := by
  induction a with
  | nil => simp [List.takeWhile, hx]
  | cons c cs ih =>
    simp only [List.cons_append, List.takeWhile, ha c (List.mem_cons_self c cs)]
    exact congrArg (List.cons c) (ih (fun d hd => ha d (List.mem_cons_of_mem c hd)))

theorem dropWhile_append_cons {p : Char → Bool} (a : List Char) (x : Char) (t : List Char)
    (ha : ∀ c ∈ a, p c = true) (hx : p x = false) :
    List.dropWhile p (a ++ x :: t) = x :: t := by
  induction a with
  | nil => simp [List.dropWhile, hx]
  | cons c cs ih =>
    simp only [List.cons_append, List.dropWhile, ha c (List.mem_cons_self c cs)]
    exact ih (fun d hd => ha d (List.mem_cons_of_mem c hd))

theorem takeWhile_eq_self_of_all {p : Char → Bool} {l : List Char}
    (h : ∀ c ∈ l, p c = true) : List.takeWhile p l = l := by
  induction l with
  | nil => rfl
  | cons a t ih =>
    simp only [List.takeWhile, h a (List.mem_cons_self a t)]
    rw [ih (fun d hd => h d (List.mem_cons_of_mem a hd))]

theorem dropWhile_eq_nil_of_all {p : Char → Bool} {l : List Char}
    (h : ∀ c ∈ l, p c = true) : List.dropWhile p l = [] := by
  induction l with
  | nil => rfl
  | cons a t ih =>
    simp only [List.dropWhile, h a (List.mem_cons_self a t)]
    exact ih (fun d hd => h d (List.mem_cons_of_mem a hd))

theorem isDigit_false_of_ws {c : Char} (h : isPyWs c = true) : isDigitChar c = false := by
  simp only [isPyWs, Bool.or_eq_true, decide_eq_true_eq] at h
  rcases h with ((((h | h) | h) | h) | h) | h <;> subst h <;> decide

theorem ws_false_of_isDigit {c : Char} (h : isDigitChar c = true) : isPyWs c = false := by
  cases hw : isPyWs c with
  | false => rfl
  | true => rw [isDigit_false_of_ws hw] at h; cases h

theorem digit_ne_plus {c : Char} (h : isDigitChar c = true) : c ≠ '+' := by
  rintro rfl; exact absurd h (by decide)

theorem digit_ne_minus {c : Char} (h : isDigitChar c = true) : c ≠ '-' := by
  rintro rfl; exact absurd h (by decide)

theorem digit_ne_underscore {c : Char} (h : isDigitChar c = true) : c ≠ '_' := by
  rintro rfl; exact absurd h (by decide)

theorem splitSign_eq_of_head {c : Char} (r : List Char) (h1 : c ≠ '+') (h2 : c ≠ '-') :
    splitSign (c :: r) = (false, c :: r) := by
  simp [splitSign, h1, h2]

theorem digitsFoldl_acc (b : List Char) : ∀ n : ℕ,
    List.foldl (fun a c => 10 * a + digitVal c) n b =
      n * 10 ^ b.length + List.foldl (fun a c => 10 * a + digitVal c) 0 b := by
  induction b with
  | nil => intro n; simp
  | cons c t ih =>
    intro n
    simp only [List.foldl_cons, List.length_cons]
    rw [ih (10 * n + digitVal c), ih (10 * 0 + digitVal c)]
    ring

theorem digitsToNat_append (a b : List Char) :
    digitsToNat (a ++ b) = digitsToNat a * 10 ^ b.length + digitsToNat b := by
  unfold digitsToNat
  rw [List.foldl_append]
  exact digitsFoldl_acc b (List.foldl (fun a c => 10 * a + digitVal c) 0 a)

theorem decNumeric_dot (sgn : Bool) (t u : List Char)
    (hr1 : List.dropWhile isDigitChar t = '.' :: u) :
    decNumeric sgn t =
      if List.takeWhile isDigitChar t = [] ∧ List.takeWhile isDigitChar u = [] then none
      else (decTail (List.dropWhile isDigitChar u)).map
        (mkNum sgn (List.takeWhile isDigitChar t) (List.takeWhile isDigitChar u)) := by
  unfold decNumeric
  rw [hr1]
  simp

theorem decNumeric_nodot (sgn : Bool) (t : List Char) (c0 : Char) (u : List Char)
    (hr1 : List.dropWhile isDigitChar t = c0 :: u) (hc0 : c0 ≠ '.') :
    decNumeric sgn t =
      if List.takeWhile isDigitChar t = [] then none
      else (decTail (c0 :: u)).map (mkNum sgn (List.takeWhile isDigitChar t) []) := by
  unfold decNumeric
  rw [hr1]
  simp [hc0]

/-- The Decimal constructor on a pure digit string with one interior dot:
the exact rational with the digits as numerator and a power of ten from the
count of fractional digits. -/
theorem pythonDecimal_dotted_digits (a b : List Char)
    (ha : ∀ c ∈ a, isDigitChar c = true) (hb : ∀ c ∈ b, isDigitChar c = true)
    (hne : a ≠ [] ∨ b ≠ []) :
    pythonDecimal ⟨a ++ '.' :: b⟩ =
      some (PyDecimal.num ((digitsToNat (a ++ b) : ℚ) / (10 : ℚ) ^ b.length)) := by
  have hnws : ∀ c ∈ a ++ '.' :: b, isPyWs c = false := by
    intro c hc
    rcases List.mem_append.mp hc with h | h
    · exact ws_false_of_isDigit (ha c h)
    · rcases List.mem_cons.mp h with rfl | h
      · decide
      · exact ws_false_of_isDigit (hb c h)
  have hclean : decClean (a ++ '.' :: b) = a ++ '.' :: b := by
    unfold decClean
    rw [stripList_eq_self hnws]
    apply List.filter_eq_self.mpr
    intro c hc
    rcases List.mem_append.mp hc with h | h
    · exact decide_eq_true (digit_ne_underscore (ha c h))
    · rcases List.mem_cons.mp h with rfl | h
      · decide
      · exact decide_eq_true (digit_ne_underscore (hb c h))
  have hss : splitSign (a ++ '.' :: b) = (false, a ++ '.' :: b) := by
    cases a with
    | nil => exact splitSign_eq_of_head b (by decide) (by decide)
    | cons a0 t =>
      have h0 := ha a0 (List.mem_cons_self a0 t)
      simpa using splitSign_eq_of_head (t ++ '.' :: b) (digit_ne_plus h0) (digit_ne_minus h0)
  have htw : List.takeWhile isDigitChar (a ++ '.' :: b) = a :=
    takeWhile_append_cons a '.' b ha (by decide)
  have hdw : List.dropWhile isDigitChar (a ++ '.' :: b) = '.' :: b :=
    dropWhile_append_cons a '.' b ha (by decide)
  have hdn : decNumeric false (a ++ '.' :: b) =
      some (PyDecimal.num ((digitsToNat (a ++ b) : ℚ) / (10 : ℚ) ^ b.length)) := by
    rw [decNumeric_dot false (a ++ '.' :: b) b hdw, htw,
      takeWhile_eq_self_of_all hb, dropWhile_eq_nil_of_all hb]
    rw [if_neg (by rcases hne with h | h <;> simp [h])]
    show some (mkNum false a b 0) = _
    unfold mkNum
    congr 1
    congr 1
    rw [show (if false = true then (-1 : ℚ) else 1) = 1 from rfl, one_mul, zero_sub,
      zpow_neg, zpow_natCast, div_eq_mul_inv]
  show pythonDecimal ⟨a ++ '.' :: b⟩ = _
  unfold pythonDecimal
  simp only [show (⟨a ++ '.' :: b⟩ : String).data = a ++ '.' :: b from rfl, hclean, hss, hdn]

/-- Claim C6. Every string of exactly 13 ASCII digits decodes through
pic11v99 to the exact rational given by the digit value divided by 100 (the
decimal point two digits from the right); no floating point is involved
anywhere in the model. -/
theorem c6_thm (s : String) (hlen : s.length = 13)
    (hd : ∀ c ∈ s.data, isDigitChar c = true) :
    pic11v99 s = some (PyDecimal.num ((digitsToNat s.data : ℚ) / 100)) := by
  have hdata : s.data.length = 13 := hlen
  have ha : ∀ c ∈ s.data.take 11, isDigitChar c = true :=
    fun c hc => hd c (List.take_subset 11 s.data hc)
  have hb : ∀ c ∈ s.data.drop 11, isDigitChar c = true :=
    fun c hc => hd c (List.drop_subset 11 s.data hc)
  have hlenb : (s.data.drop 11).length = 2 := by rw [List.length_drop, hdata]
  have hne : s.data.take 11 ≠ [] ∨ s.data.drop 11 ≠ [] := by
    right
    intro hnil
    rw [hnil] at hlenb
    simp at hlenb
  have key := pythonDecimal_dotted_digits (s.data.take 11) (s.data.drop 11) ha hb hne
  unfold pic11v99 pic_to_decimal
  rw [key, List.take_append_drop, hlenb]
  norm_num

/-- Witness for C6: the spec example "0000000001050" decodes to exactly
10.50, i.e. the rational 21/2. -/
theorem c6_witness :
    (∀ c ∈ ("0000000001050" : String).data, isDigitChar c = true) ∧
      pic11v99 "0000000001050" = some (PyDecimal.num ((21 : ℚ) / 2)) := by
  have h := c6_thm "0000000001050" rfl (by decide)
  have hv : digitsToNat ("0000000001050" : String).data = 1050 := rfl
  rw [hv] at h
  refine ⟨by decide, ?_⟩
  rw [h]
  norm_num

/-! ## Claim C7: unparsable strings always decode to the no-value sentinel -/

theorem splitSign_cases (l : List Char) :
    splitSign l = (false, l) ∨ (∃ r, l = '+' :: r ∧ splitSign l = (false, r)) ∨
      ∃ r, l = '-' :: r ∧ splitSign l = (true, r) := by
  cases l with
  | nil => left; rfl
  | cons c r =>
    by_cases h1 : c = '+'
    · subst h1; right; left; exact ⟨r, rfl, by simp [splitSign]⟩
    · by_cases h2 : c = '-'
      · subst h2; right; right; exact ⟨r, rfl, by simp [splitSign, h1]⟩
      · left; simp [splitSign, h1, h2]

theorem mem_takeWhile_digit {l : List Char} {c : Char}
    (hc : c ∈ List.takeWhile isDigitChar l) : isDigitChar c = true := by
  induction l with
  | nil => simp [List.takeWhile] at hc
  | cons a t ih =>
    by_cases ha : isDigitChar a = true
    · rw [List.takeWhile_cons, if_pos ha] at hc
      rcases List.mem_cons.mp hc with rfl | hct
      · exact ha
      · exact ih hct
    · rw [List.takeWhile_cons, if_neg ha] at hc
      simp at hc

theorem toLower_dot_mem {l : List Char} (h : '.' ∈ l) : '.' ∈ l.map Char.toLower := by
  have := List.mem_map_of_mem Char.toLower h
  simpa using this

theorem isNanForm_no_dot {l : List Char} (h : isNanForm l = true) : '.' ∉ l := by
  intro hdot
  unfold isNanForm at h
  split at h
  · rename_i rest
    simp only [List.mem_cons] at hdot
    rcases hdot with h1 | h1 | h1 | h1
    · exact absurd h1 (by decide)
    · exact absurd h1 (by decide)
    · exact absurd h1 (by decide)
    · rw [List.all_eq_true] at h
      exact absurd (h '.' h1) (by decide)
  · rename_i rest
    simp only [List.mem_cons] at hdot
    rcases hdot with h1 | h1 | h1 | h1 | h1
    · exact absurd h1 (by decide)
    · exact absurd h1 (by decide)
    · exact absurd h1 (by decide)
    · exact absurd h1 (by decide)
    · rw [List.all_eq_true] at h
      exact absurd (h '.' h1) (by decide)
  · cases h

theorem mem_dropWhile_of_mem {p : Char → Bool} {l : List Char} {x : Char}
    (hx : x ∈ l) (hpx : p x = false) : x ∈ List.dropWhile p l := by
  induction l with
  | nil => cases hx
  | cons a t ih =>
    by_cases hpa : p a = true
    · rw [List.dropWhile_cons, if_pos hpa]
      rcases List.mem_cons.mp hx with rfl | hxt
      · rw [hpa] at hpx; cases hpx
      · exact ih hxt
    · rw [List.dropWhile_cons, if_neg hpa]
      exact hx

theorem mem_stripList_of_mem {l : List Char} {x : Char}
    (hx : x ∈ l) (hpx : isPyWs x = false) : x ∈ stripList l := by
  unfold stripList
  rw [List.mem_reverse]
  exact mem_dropWhile_of_mem (List.mem_reverse.mpr (mem_dropWhile_of_mem hx hpx)) hpx

theorem mem_splitSign_snd {l : List Char} {x : Char}
    (hx : x ∈ l) (h1 : x ≠ '+') (h2 : x ≠ '-') : x ∈ (splitSign l).2 := by
  rcases splitSign_cases l with hs | ⟨r, hl, hs⟩ | ⟨r, hl, hs⟩ <;> rw [hs]
  · exact hx
  · subst hl
    rcases List.mem_cons.mp hx with rfl | h
    · exact absurd rfl h1
    · exact h
  · subst hl
    rcases List.mem_cons.mp hx with rfl | h
    · exact absurd rfl h2
    · exact h

theorem mem_decClean {l : List Char} {x : Char}
    (hx : x ∈ l) (hws : isPyWs x = false) (hu : x ≠ '_') : x ∈ decClean l := by
  unfold decClean
  rw [List.mem_filter]
  exact ⟨mem_stripList_of_mem hx hws, decide_eq_true hu⟩

theorem decTail_cons_some {c0 : Char} {u : List Char} {e : ℤ}
    (h : decTail (c0 :: u) = some e) :
    (c0 = 'e' ∨ c0 = 'E') ∧ parseExp u = some e := by
  have h2 : (if c0 = 'e' ∨ c0 = 'E' then parseExp u else none) = some e := h
  by_cases hx : c0 = 'e' ∨ c0 = 'E'
  · rw [if_pos hx] at h2
    exact ⟨hx, h2⟩
  · rw [if_neg hx] at h2
    cases h2

/-- An accepted exponent tail decomposes into an optional sign and a
nonempty digit run. -/
theorem parseExp_some {u : List Char} {e : ℤ} (h : parseExp u = some e) :
    ∃ sg2 d3 : List Char, u = sg2 ++ d3 ∧ (sg2 = [] ∨ sg2 = ['+'] ∨ sg2 = ['-']) ∧
      d3 ≠ [] ∧ ∀ c ∈ d3, isDigitChar c = true := by
  unfold parseExp at h
  rcases splitSign_cases u with hs | ⟨r, hu, hs⟩ | ⟨r, hu, hs⟩ <;> rw [hs] at h <;>
    (try subst hu) <;> simp only at h
  · split at h
    · rename_i hcond
      simp only [Bool.and_eq_true, decide_eq_true_eq, List.all_eq_true] at hcond
      exact ⟨[], u, by simp, Or.inl rfl, hcond.1, hcond.2⟩
    · cases h
  · split at h
    · rename_i hcond
      simp only [Bool.and_eq_true, decide_eq_true_eq, List.all_eq_true] at hcond
      exact ⟨['+'], r, by simp, Or.inr (Or.inl rfl), hcond.1, hcond.2⟩
    · cases h
  · split at h
    · rename_i hcond
      simp only [Bool.and_eq_true, decide_eq_true_eq, List.all_eq_true] at hcond
      exact ⟨['-'], r, by simp, Or.inr (Or.inr rfl), hcond.1, hcond.2⟩
    · cases h

/-- Conversely, every optional sign followed by a nonempty digit run is an
accepted exponent tail. -/
theorem parseExp_of_shape (sg2 d3 : List Char)
    (hsg2 : sg2 = [] ∨ sg2 = ['+'] ∨ sg2 = ['-']) (hd3ne : d3 ≠ [])
    (hd3 : ∀ c ∈ d3, isDigitChar c = true) : ∃ e, parseExp (sg2 ++ d3) = some e := by
  have hss : (splitSign (sg2 ++ d3)).2 = d3 := by
    rcases hsg2 with rfl | rfl | rfl
    · rw [List.nil_append]
      cases d3 with
      | nil => exact absurd rfl hd3ne
      | cons c r =>
        have hc := hd3 c (List.mem_cons_self c r)
        rw [splitSign_eq_of_head r (digit_ne_plus hc) (digit_ne_minus hc)]
    · simp [splitSign]
    · simp [splitSign]
  refine ⟨(if (splitSign (sg2 ++ d3)).1 then -1 else 1) * (digitsToNat d3 : ℤ), ?_⟩
  unfold parseExp
  simp only [hss]
  have hcond : (decide (d3 ≠ []) && List.all d3 isDigitChar) = true := by
    simp only [Bool.and_eq_true, decide_eq_true_eq, List.all_eq_true]
    exact ⟨hd3ne, hd3⟩
  rw [if_pos hcond]

/-- Soundness of the numeral shape for the numeric alternative: every body
of the shape is accepted. -/
theorem decNumeric_shape_some (sgn : Bool) (d1 d2 ex : List Char)
    (hd1 : ∀ c ∈ d1, isDigitChar c = true) (hd2 : ∀ c ∈ d2, isDigitChar c = true)
    (hne : ¬(d1 = [] ∧ d2 = []))
    (hex : ex = [] ∨ ∃ e0 : Char, ∃ sg2 d3 : List Char,
      ex = e0 :: (sg2 ++ d3) ∧ (e0 = 'e' ∨ e0 = 'E') ∧
      (sg2 = [] ∨ sg2 = ['+'] ∨ sg2 = ['-']) ∧ d3 ≠ [] ∧
      ∀ c ∈ d3, isDigitChar c = true) :
    ∃ v, decNumeric sgn (d1 ++ '.' :: (d2 ++ ex)) = some v := by
  have hdw : List.dropWhile isDigitChar (d1 ++ '.' :: (d2 ++ ex)) = '.' :: (d2 ++ ex) :=
    dropWhile_append_cons d1 '.' (d2 ++ ex) hd1 (by decide)
  have htw : List.takeWhile isDigitChar (d1 ++ '.' :: (d2 ++ ex)) = d1 :=
    takeWhile_append_cons d1 '.' (d2 ++ ex) hd1 (by decide)
  rw [decNumeric_dot sgn (d1 ++ '.' :: (d2 ++ ex)) (d2 ++ ex) hdw, htw]
  rcases hex with rfl | ⟨e0, sg2, d3, rfl, he0, hsg2, hd3ne, hd3⟩
  · rw [List.append_nil, takeWhile_eq_self_of_all hd2, dropWhile_eq_nil_of_all hd2,
      if_neg hne]
    exact ⟨_, rfl⟩
  · have he0d : isDigitChar e0 = false := by rcases he0 with rfl | rfl <;> decide
    rw [takeWhile_append_cons d2 e0 (sg2 ++ d3) hd2 he0d,
      dropWhile_append_cons d2 e0 (sg2 ++ d3) hd2 he0d, if_neg hne]
    obtain ⟨e, hpe⟩ := parseExp_of_shape sg2 d3 hsg2 hd3ne hd3
    have hdt : decTail (e0 :: (sg2 ++ d3)) = some e := by
      show (if e0 = 'e' ∨ e0 = 'E' then parseExp (sg2 ++ d3) else none) = some e
      rw [if_pos he0, hpe]
    rw [hdt]
    exact ⟨_, rfl⟩

/-- Soundness: a cleaned text of the numeral shape is accepted by the
Decimal constructor. -/
theorem pythonDecimal_some_of_shape (s : String)
    (h : specNumeralShape (decClean s.data)) : ∃ v, pythonDecimal s = some v := by
  obtain ⟨sg, d1, d2, ex, hl, hsg, hd1, hd2, hne, hex⟩ := h
  simp only [pythonDecimal]
  rw [hl]
  rcases hsg with rfl | rfl | rfl
  · rw [List.nil_append]
    have hss : splitSign (d1 ++ '.' :: (d2 ++ ex)) = (false, d1 ++ '.' :: (d2 ++ ex)) := by
      cases d1 with
      | nil => exact splitSign_eq_of_head (d2 ++ ex) (by decide) (by decide)
      | cons a0 t =>
        have h0 := hd1 a0 (List.mem_cons_self a0 t)
        simpa using splitSign_eq_of_head (t ++ '.' :: (d2 ++ ex)) (digit_ne_plus h0)
          (digit_ne_minus h0)
    rw [hss]
    obtain ⟨v, hv⟩ := decNumeric_shape_some false d1 d2 ex hd1 hd2 hne hex
    rw [hv]
    exact ⟨v, rfl⟩
  · rw [show ((['+'] : List Char) ++ (d1 ++ '.' :: (d2 ++ ex))) =
      '+' :: (d1 ++ '.' :: (d2 ++ ex)) from rfl]
    rw [show splitSign ('+' :: (d1 ++ '.' :: (d2 ++ ex))) =
      (false, d1 ++ '.' :: (d2 ++ ex)) from by simp [splitSign]]
    obtain ⟨v, hv⟩ := decNumeric_shape_some false d1 d2 ex hd1 hd2 hne hex
    rw [hv]
    exact ⟨v, rfl⟩
  · rw [show ((['-'] : List Char) ++ (d1 ++ '.' :: (d2 ++ ex))) =
      '-' :: (d1 ++ '.' :: (d2 ++ ex)) from rfl]
    rw [show splitSign ('-' :: (d1 ++ '.' :: (d2 ++ ex))) =
      (true, d1 ++ '.' :: (d2 ++ ex)) from by simp [splitSign]]
    obtain ⟨v, hv⟩ := decNumeric_shape_some true d1 d2 ex hd1 hd2 hne hex
    rw [hv]
    exact ⟨v, rfl⟩

/-- Completeness: when the cleaned text contains the dot, acceptance by the
Decimal constructor forces the numeral shape (the infinity and NaN
alternatives cannot contain a dot). -/
theorem shape_of_pythonDecimal_some (s : String) (hdot : '.' ∈ decClean s.data)
    {v : PyDecimal} (h : pythonDecimal s = some v) :
    specNumeralShape (decClean s.data) := by
  have hdt : '.' ∈ (splitSign (decClean s.data)).2 :=
    mem_splitSign_snd hdot (by decide) (by decide)
  simp only [pythonDecimal] at h
  cases hdn : decNumeric (splitSign (decClean s.data)).1 (splitSign (decClean s.data)).2 with
  | none =>
    rw [hdn] at h
    have hinf : ¬((splitSign (decClean s.data)).2.map Char.toLower = ("inf").data ∨
        (splitSign (decClean s.data)).2.map Char.toLower = ("infinity").data) := by
      rintro (hl | hl) <;>
        (have hmem := toLower_dot_mem hdt; rw [hl] at hmem; exact absurd hmem (by decide))
    have hnan : ¬(isNanForm ((splitSign (decClean s.data)).2.map Char.toLower) = true) := by
      intro hf
      exact isNanForm_no_dot hf (toLower_dot_mem hdt)
    rw [if_neg hinf, if_neg hnan] at h
    cases h
  | some v0 =>
    have hsg : decClean s.data = (splitSign (decClean s.data)).2 ∨
        decClean s.data = '+' :: (splitSign (decClean s.data)).2 ∨
        decClean s.data = '-' :: (splitSign (decClean s.data)).2 := by
      rcases splitSign_cases (decClean s.data) with hs | ⟨r, hr, hs⟩ | ⟨r, hr, hs⟩
      · left; rw [hs]
      · right; left; rw [hs]; exact hr
      · right; right; rw [hs]; exact hr
    have hdotdrop : '.' ∈ List.dropWhile isDigitChar (splitSign (decClean s.data)).2 := by
      have hcopy := hdt
      rw [← List.takeWhile_append_dropWhile isDigitChar (splitSign (decClean s.data)).2]
        at hcopy
      rcases List.mem_append.mp hcopy with h1 | h1
      · exact absurd (mem_takeWhile_digit h1) (by decide)
      · exact h1
    rcases hr1 : List.dropWhile isDigitChar (splitSign (decClean s.data)).2 with _ | ⟨c0, u⟩
    · rw [hr1] at hdotdrop
      cases hdotdrop
    · rw [hr1] at hdotdrop
      by_cases hc0 : c0 = '.'
      · subst hc0
        rw [decNumeric_dot _ _ u hr1] at hdn
        split at hdn
        · cases hdn
        · rename_i hcond
          rcases hmap : decTail (List.dropWhile isDigitChar u) with _ | e
          · rw [hmap] at hdn
            simp at hdn
          · have hexshape : List.dropWhile isDigitChar u = [] ∨
                ∃ e0 : Char, ∃ sg2 d3 : List Char,
                  List.dropWhile isDigitChar u = e0 :: (sg2 ++ d3) ∧
                  (e0 = 'e' ∨ e0 = 'E') ∧ (sg2 = [] ∨ sg2 = ['+'] ∨ sg2 = ['-']) ∧
                  d3 ≠ [] ∧ ∀ c ∈ d3, isDigitChar c = true := by
              rcases hr2 : List.dropWhile isDigitChar u with _ | ⟨e0, w⟩
              · exact Or.inl rfl
              · rw [hr2] at hmap
                obtain ⟨he0, hpe⟩ := decTail_cons_some hmap
                obtain ⟨sg2, d3, hw, hsg2, hd3ne, hd3⟩ := parseExp_some hpe
                exact Or.inr ⟨e0, sg2, d3, by rw [hw], he0, hsg2, hd3ne, hd3⟩
            have hteq : (splitSign (decClean s.data)).2 =
                List.takeWhile isDigitChar (splitSign (decClean s.data)).2 ++
                  '.' :: (List.takeWhile isDigitChar u ++ List.dropWhile isDigitChar u) := by
              conv_lhs => rw [← List.takeWhile_append_dropWhile isDigitChar
                (splitSign (decClean s.data)).2]
              rw [hr1, List.takeWhile_append_dropWhile]
            rcases hsg with hL | hL | hL
            · exact ⟨[], List.takeWhile isDigitChar (splitSign (decClean s.data)).2,
                List.takeWhile isDigitChar u, List.dropWhile isDigitChar u,
                by rw [List.nil_append]; conv_lhs => rw [hL, hteq], Or.inl rfl,
                fun c hc => mem_takeWhile_digit hc, fun c hc => mem_takeWhile_digit hc,
                hcond, hexshape⟩
            · exact ⟨['+'], List.takeWhile isDigitChar (splitSign (decClean s.data)).2,
                List.takeWhile isDigitChar u, List.dropWhile isDigitChar u,
                by
                  rw [List.singleton_append]
                  conv_lhs => rw [hL]
                  exact congrArg (List.cons '+') hteq, Or.inr (Or.inl rfl),
                fun c hc => mem_takeWhile_digit hc, fun c hc => mem_takeWhile_digit hc,
                hcond, hexshape⟩
            · exact ⟨['-'], List.takeWhile isDigitChar (splitSign (decClean s.data)).2,
                List.takeWhile isDigitChar u, List.dropWhile isDigitChar u,
                by
                  rw [List.singleton_append]
                  conv_lhs => rw [hL]
                  exact congrArg (List.cons '-') hteq, Or.inr (Or.inr rfl),
                fun c hc => mem_takeWhile_digit hc, fun c hc => mem_takeWhile_digit hc,
                hcond, hexshape⟩
      · exfalso
        rw [decNumeric_nodot _ _ c0 u hr1 hc0] at hdn
        split at hdn
        · cases hdn
        · rcases hmap : decTail (c0 :: u) with _ | e
          · rw [hmap] at hdn
            simp at hdn
          · obtain ⟨he0, hpe⟩ := decTail_cons_some hmap
            obtain ⟨sg2, d3, hw, hsg2, hd3ne, hd3⟩ := parseExp_some hpe
            rcases List.mem_cons.mp hdotdrop with heq | hmem
            · exact hc0 heq.symm
            · rw [hw] at hmem
              rcases List.mem_append.mp hmem with h2 | h2
              · rcases hsg2 with rfl | rfl | rfl
                · cases h2
                · simp at h2
                · simp at h2
              · exact absurd (hd3 '.' h2) (by decide)

/-- Claim C7. Complete characterization of failure for the picture-decimal
decoder: the result is the explicit no-value sentinel exactly when the
dot-inserted text, after the Decimal cleaning, lacks the numeral shape — so
every string that cannot be parsed as a number (non-digit corruption, the
empty string, a bare sign, repeated dots, a dangling exponent marker, and so
on) yields the sentinel, and every parseable one does not. The decoders are
total in the model because pic_to_decimal catches InvalidOperation, so no
exception can reach the caller; the three width-specific variants are the
decoder at split positions 11, 16 and 7. -/
theorem c7_thm (number : String) (integral_places : ℕ) :
    (pic_to_decimal number integral_places = none ↔
      ¬ specNumeralShape (decClean (number.data.take integral_places ++
        '.' :: number.data.drop integral_places))) ∧
      pic11v99 number = pic_to_decimal number 11 ∧
      pic16v99 number = pic_to_decimal number 16 ∧
      pic7v06 number = pic_to_decimal number 7 := by
  refine ⟨⟨?_, ?_⟩, rfl, rfl, rfl⟩
  · intro hnone hshape
    obtain ⟨v, hv⟩ := pythonDecimal_some_of_shape
      ⟨number.data.take integral_places ++ '.' :: number.data.drop integral_places⟩ hshape
    unfold pic_to_decimal at hnone
    rw [hnone] at hv
    cases hv
  · intro hshape
    unfold pic_to_decimal
    cases hres : pythonDecimal ⟨number.data.take integral_places ++
        '.' :: number.data.drop integral_places⟩ with
    | none => rfl
    | some v =>
      exfalso
      apply hshape
      exact shape_of_pythonDecimal_some _
        (mem_decClean (List.mem_append_right _ (List.mem_cons_self '.' _))
          (by decide) (by decide)) hres

/-- Witness for C7: the corrupt text of the claim, the empty string, a bare
sign, repeated dots and a dangling exponent marker all decode to the
sentinel; an underscored numeral is cleaned and accepted, as CPython does. -/
theorem c7_witness :
    pic_to_decimal "12A4" 11 = none ∧
      ¬ specNumeralShape (decClean (("12A4" : String).data.take 11 ++
        '.' :: ("12A4" : String).data.drop 11)) ∧
      pic11v99 "" = none ∧ pic_to_decimal "+" 11 = none ∧
      pic_to_decimal ".." 11 = none ∧ pic_to_decimal "1e" 11 = none ∧
      pic11v99 "1_0" = some (PyDecimal.num 10) := by
  refine ⟨rfl, ((c7_thm "12A4" 11).1).mp rfl, rfl, rfl, rfl, rfl, ?_⟩
  show some (mkNum false ['1', '0'] [] 0) = some (PyDecimal.num 10)
  unfold mkNum
  congr 1
  congr 1
  rw [show (if false = true then (-1 : ℚ) else 1) = 1 from rfl, one_mul,
    show digitsToNat (['1', '0'] ++ []) = 10 from rfl]
  norm_num

/-! ## Claim C9: decoding the INDOPC correction-type field -/

theorem pyInt_singleton_digit {c : Char} (h : isDigitChar c = true) :
    pyInt ⟨[c]⟩ = some ((digitVal c : ℕ) : ℤ) := by
  unfold pyInt
  rw [show (⟨[c]⟩ : String).data = [c] from rfl,
    stripList_eq_self (fun x hx => by
      rw [List.mem_singleton.mp hx]; exact ws_false_of_isDigit h)]
  simp [digit_ne_plus h, digit_ne_minus h, intDigits, intDigitsAux, h]

/-- Claim C9. The INDOPC entry of the field table (position 19) decodes the
raw text "0" to the explicit no-value sentinel, neither zero nor an error;
and any other single digit whose value is a member of the correction-type
enumeration decodes to that member. -/
theorem c9_thm (E : B3Enums) (c : Char) (n : ℕ)
    (hd : isDigitChar c = true) (hv : digitVal c = n) (hnz : n ≠ 0)
    (hcc : E.contractCorrection (n : ℤ) = true) :
    ((quotes_fields E).get? 19).map QuotesField.name = some "INDOPC" ∧
      ((quotes_fields E).get? 19).map (fun f => f.factory ⟨[c]⟩) =
        some (some (FieldValue.correction (some (n : ℤ)))) ∧
      ((quotes_fields E).get? 19).map (fun f => f.factory "0") =
        some (some (FieldValue.correction none)) := by
  have hint : pyInt ⟨[c]⟩ = some ((n : ℕ) : ℤ) := by
    rw [← hv]
    exact pyInt_singleton_digit hd
  refine ⟨rfl, ?_, rfl⟩
  have h19 : (quotes_fields E).get? 19 = some ⟨"INDOPC", 1, fun v => (pyInt v).bind (fun n =>
      if n = 0 then some (FieldValue.correction none)
      else if E.contractCorrection n then some (FieldValue.correction (some n)) else none)⟩ := rfl
  rw [h19]
  simp [hint, hcc, Int.natCast_eq_zero, hnz]

/-- Witness for C9: with a sample enumeration containing the member 1, the
digit "1" decodes to that member and "0" decodes to no-value. -/
theorem c9_witness :
    isDigitChar '1' = true ∧ E0.contractCorrection ((1 : ℕ) : ℤ) = true ∧
      ((quotes_fields E0).get? 19).map (fun f => f.factory ⟨['1']⟩) =
        some (some (FieldValue.correction (some ((1 : ℕ) : ℤ)))) ∧
      ((quotes_fields E0).get? 19).map (fun f => f.factory "0") =
        some (some (FieldValue.correction none)) := by
  have h := c9_thm E0 '1' 1 (by decide) (by decide) (by decide) (by decide)
  exact ⟨by decide, by decide, h.2.1, h.2.2⟩

/-! ## Claim C10: failure modes of the remote company-detail lookup -/

/-- Counterexample for C10: a non-empty JSON object that lacks "cnpj" but
whose "otherCodes" entry is a number. Iterating it raises TypeError before
any key lookup, so no request-error naming the missing key is raised. -/
theorem c10_counterexample :
    lookupA [("otherCodes", Json.num 0)] "cnpj" = none ∧
      company_detail "123" [("otherCodes", Json.num 0)] =
        Except.error (PyError.typeError "object is not iterable") :=
  ⟨rfl, rfl⟩

/-- Claim C10 as amended. An empty JSON object response always raises a
request-error naming the queried code; a non-empty response lacking "cnpj"
raises a request-error naming that key whenever the security-code gathering
pass finishes (its only uncaught failure is the TypeError of a malformed
"otherCodes" value, which propagates instead). No partial CompanyDetail is
ever returned in these cases. -/
theorem c10_thm (cvm_code : String) (response : List (String × Json)) :
    (response = [] →
      company_detail cvm_code response =
        Except.error (PyError.requestError
          ("no company found with CVM code " ++ cvm_code))) ∧
      (response ≠ [] → lookupA response "cnpj" = none →
        ∀ cs, gatherSecurityCodes response = Except.ok cs →
          company_detail cvm_code response =
            Except.error (PyError.requestError "Missing key \x27cnpj\x27")) := by
  constructor
  · rintro rfl
    rfl
  · intro hne hcnpj cs hcs
    have hlen : ¬(response.length = 0) := by
      simpa [List.length_eq_zero] using hne
    have hbuild : buildCompanyDetail response cs = Except.error (PyError.keyError "cnpj") := by
      unfold buildCompanyDetail objItem
      rw [hcnpj]
      rfl
    unfold company_detail
    rw [if_neg hlen, hcs]
    show (match buildCompanyDetail response cs with
      | Except.ok detail => Except.ok detail
      | Except.error (PyError.keyError k) =>
        Except.error (PyError.requestError ("Missing key \x27" ++ k ++ "\x27"))
      | Except.error err => Except.error err) = _
    rw [hbuild]
    rfl

/-- Witness for C10: the empty response for code "77", and a one-key response
without "cnpj" for code "9512". -/
theorem c10_witness :
    company_detail "77" [] =
        Except.error (PyError.requestError "no company found with CVM code 77") ∧
      lookupA [("codeCVM", Json.num 9512)] "cnpj" = none ∧
      company_detail "9512" [("codeCVM", Json.num 9512)] =
        Except.error (PyError.requestError "Missing key \x27cnpj\x27") := by
  refine ⟨(c10_thm "77" []).1 rfl, rfl, ?_⟩
  exact (c10_thm "9512" [("codeCVM", Json.num 9512)]).2 (by simp) rfl [] rfl
